import Mathlib

/-!
Verification of the type-signature resolution and operator-overload registry
of the onnxscript core: the type-expression analyzer (`pytype_to_input_strings`),
the type-variable namer (`get_type_constraint_name`), shaped-tensor construction,
and the aten-function `Registry` from
`onnxscript/function_libs/torch_aten/registration.py`.
-/

namespace OnnxScript

/-- Modelled from the spec: the primitive tensor element kinds of the fixed
catalog of supported element types (`onnxscript/type_annotation.py` is not in
the sources; the catalog is the static constant `ALL_TYPE_STRINGS`). -/
inductive ElementType : Type where
  | bfloat16 | bool | complex128 | complex64
  | double | float | float16 | int16
  | int32 | int64 | int8 | string
  | uint16 | uint32 | uint64 | uint8
  deriving DecidableEq, Repr

/-- The element-type descriptor inside `tensor(...)`. -/
def ElementType.toStr : ElementType → String
  | .bfloat16 => "bfloat16"
  | .bool => "bool"
  | .complex128 => "complex128"
  | .complex64 => "complex64"
  | .double => "double"
  | .float => "float"
  | .float16 => "float16"
  | .int16 => "int16"
  | .int32 => "int32"
  | .int64 => "int64"
  | .int8 => "int8"
  | .string => "string"
  | .uint16 => "uint16"
  | .uint32 => "uint32"
  | .uint64 => "uint64"
  | .uint8 => "uint8"

/-- The canonical declared order of the element-type catalog. -/
def ElementType.all : List ElementType :=
  [.bfloat16, .bool, .complex128, .complex64, .double, .float, .float16, .int16,
   .int32, .int64, .int8, .string, .uint16, .uint32, .uint64, .uint8]

/-- Textual composition of a `tensor(...)` descriptor. -/
def tensorStr (e : ElementType) : String := "tensor(" ++ e.toStr ++ ")"

/-- Modelled from the spec: the static constant `ALL_TYPE_STRINGS`, the
authoritative ordered list of all element-kind descriptors. -/
def ALL_TYPE_STRINGS : List String := ElementType.all.map tensorStr

/-- A shape applied to a tensor type: fixed dims, variadic/unknown
rank, or a symbolic dim. Shapes are erased when producing type-constraint
strings. -/
inductive ShapeAnn : Type where
  | dims : List Nat → ShapeAnn
  | variadic : ShapeAnn
  | symbolic : String → ShapeAnn
  deriving DecidableEq, Repr

/-- Modelled from the spec: the tree of type expressions over the five node
kinds (plus the `TensorType` wildcard). A `TypeVariable` carries either an
explicit ordered tuple of constraint element types, or a single bound which is
itself an element type or a union. -/
inductive TypeExpr : Type where
  | elemType : ElementType → TypeExpr
  | shaped : ElementType → ShapeAnn → TypeExpr
  | tensorWildcard : TypeExpr
  | typeVarConstraints : String → List ElementType → TypeExpr
  | typeVarBound : String → TypeExpr → TypeExpr
  | union : List TypeExpr → TypeExpr
  | opt : TypeExpr → TypeExpr
  | seq : TypeExpr → TypeExpr

/-- Wrapping of a descriptor by the `optional` keyword. -/
def optionalWrap (s : String) : String := "optional(" ++ s ++ ")"

/-- Wrapping of a descriptor by the `sequence` keyword. -/
def sequenceWrap (s : String) : String := "sequence(" ++ s ++ ")"

/-- Deduplication preserving the first occurrence of each element. -/
def dedupFirst {α : Type} [DecidableEq α] : List α → List α
  | [] => []
  | x :: xs => x :: (dedupFirst xs).filter (fun y => decide (y ≠ x))

mutual

/-- Modelled from the spec: the type-expression analyzer
`pytype_to_input_strings`, expanding a type expression into the ordered,
deduplicated list of type-constraint strings. -/
def pytype_to_input_strings : TypeExpr → List String
  | .elemType e => [tensorStr e]
  | .shaped e _ => [tensorStr e]
  | .tensorWildcard => ALL_TYPE_STRINGS
  | .typeVarConstraints _ cs => dedupFirst (cs.map tensorStr)
  | .typeVarBound _ b => pytype_to_input_strings b
  | .union ms => dedupFirst (resolveMembers ms)
  | .opt inner =>
      dedupFirst (pytype_to_input_strings inner
        ++ (pytype_to_input_strings inner).map optionalWrap)
  | .seq inner => (pytype_to_input_strings inner).map sequenceWrap

/-- Concatenation of the resolutions of a union's members, declaration order. -/
def resolveMembers : List TypeExpr → List String
  | [] => []
  | m :: ms => pytype_to_input_strings m ++ resolveMembers ms

end

/-- Modelled from the spec: the identifier of a bare type variable, and `none`
for every other node kind. Helper for stating the namer's contract. -/
def bareTvName : TypeExpr → Option String
  | .typeVarConstraints id _ => some id
  | .typeVarBound id _ => some id
  | _ => none

/-- Modelled from the spec: the type-variable namer `get_type_constraint_name`.
Returns the identifier for a bare type variable, `"Optional" + id` or
`"Sequence" + id` when the wrapper directly wraps a bare type variable, and
`none` for every other shape. -/
def get_type_constraint_name : TypeExpr → Option String
  | .typeVarConstraints id _ => some id
  | .typeVarBound id _ => some id
  | .opt (.typeVarConstraints id _) => some ("Optional" ++ id)
  | .opt (.typeVarBound id _) => some ("Optional" ++ id)
  | .seq (.typeVarConstraints id _) => some ("Sequence" ++ id)
  | .seq (.typeVarBound id _) => some ("Sequence" ++ id)
  | _ => none

/-- Modelled from the spec: the error raised when a shape is applied to an
already-shaped tensor type (`onnx_types` is not in the sources); applying a
shape to a non-tensor expression is not a supported construction. -/
inductive ConstructError : Type where
  | invalidShapeError
  | unsupported
  deriving DecidableEq, Repr

/-- Modelled from the spec: shape application at expression-construction time
(the subscript on a tensor type, e.g. `FLOAT[100]`). A bare element type
becomes a shaped tensor; an already-shaped tensor may not be shaped again. -/
def TypeExpr.withShape : TypeExpr → ShapeAnn → Except ConstructError TypeExpr
  | .elemType e, sh => .ok (.shaped e sh)
  | .shaped _ _, _ => .error .invalidShapeError
  | _, _ => .error .unsupported

/-! ## The operator registry (`onnxscript/function_libs/torch_aten/registration.py`) -/

/-- The captured `inspect.Signature` of a function, treated as an opaque value
stored verbatim. -/
structure Signature : Type where
  raw : String
  deriving DecidableEq, Repr

/-- An implementation callable handed to the registry: either a compiled
`OnnxFunction`, which exposes a `name` attribute (its generated symbol), or a
plain Python function, which does not. -/
inductive Impl : Type where
  | onnxFunction : String → Impl
  | plainFunction : String → Impl
  deriving DecidableEq, Repr

/-- Reading the `name` attribute of an implementation; a plain Python function
has no such attribute, so the access fails. -/
def Impl.nameAttr : Impl → Option String
  | .onnxFunction n => some n
  | .plainFunction _ => none

/-- Struct for an ONNX function and the associating metadata: the registered
aten name, the implementation, and its signature. -/
structure FunctionWithMeta : Type where
  name : String
  function : Impl
  signature : Signature
  deriving DecidableEq, Repr

/-- Overloaded function: an optional default record plus the ordered list of
overload records for one operator name. -/
structure OverloadedFunction : Type where
  name : String
  default : Option FunctionWithMeta
  overloads : List FunctionWithMeta
  deriving DecidableEq, Repr

/-- Set the default function (overwrites any previous default). -/
def OverloadedFunction.set_default (o : OverloadedFunction) (f : FunctionWithMeta) :
    OverloadedFunction :=
  { o with default := some f }

/-- Add an overload (appended at the end, no deduplication). -/
def OverloadedFunction.add_overload (o : OverloadedFunction) (f : FunctionWithMeta) :
    OverloadedFunction :=
  { o with overloads := o.overloads ++ [f] }

/-- Lookup in an insertion-ordered dictionary (Python `dict`), modelled as an
association list. -/
def dictGet {α : Type} : List (String × α) → String → Option α
  | [], _ => none
  | (k2, v) :: rest, k => if k2 = k then some v else dictGet rest k

/-- Assignment in an insertion-ordered dictionary: updates the value in place
when the key is present, appends at the end otherwise (Python `dict` item
assignment, and the net effect of `dict.setdefault` followed by mutation of
the returned object). -/
def dictSet {α : Type} : List (String × α) → String → α → List (String × α)
  | [], k, v => [(k, v)]
  | (k2, v2) :: rest, k, v =>
      if k2 = k then (k2, v) :: rest else (k2, v2) :: dictSet rest k v

/-- Registry for aten functions: mapping from registered aten name to the
`OverloadedFunction`, and from (generated) function name to the
`FunctionWithMeta`. -/
structure Registry : Type where
  registry : List (String × OverloadedFunction)
  name_to_function : List (String × FunctionWithMeta)
  deriving DecidableEq, Repr

/-- The error raised by `register` when the implementation lacks a `name`
attribute. -/
inductive RegError : Type where
  | attributeError
  deriving DecidableEq, Repr

/-- Register a function. Mirrors `Registry.register`: `setdefault` the
`OverloadedFunction` for `aten_name`, build the `FunctionWithMeta`, set it as
default or append it as overload, then index it under `func.name`. The last
step reads the `name` attribute; when it is absent the call fails there, after
the `_registry` mutation has already happened (Python attribute access raises
only at that final statement). -/
def Registry.register (r : Registry) (func : Impl) (aten_name : String)
    (signature : Signature) (overload : Bool) : Registry × Option RegError :=
  let overloaded_function :=
    match dictGet r.registry aten_name with
    | some o => o
    | none => OverloadedFunction.mk aten_name none []
  let function_with_meta : FunctionWithMeta :=
    ⟨aten_name, func, signature⟩
  let updated :=
    if overload then overloaded_function.add_overload function_with_meta
    else overloaded_function.set_default function_with_meta
  let r1 : Registry := { r with registry := dictSet r.registry aten_name updated }
  match Impl.nameAttr func with
  | some sym =>
      ({ r1 with name_to_function := dictSet r1.name_to_function sym function_with_meta },
       none)
  | none => (r1, some RegError.attributeError)

/-- Mirrors `Registry.__getitem__` (fallibility modelled as `Option`). -/
def Registry.getItem (r : Registry) (aten_name : String) : Option OverloadedFunction :=
  dictGet r.registry aten_name

/-- Mirrors `Registry.__contains__`. -/
def Registry.containsName (r : Registry) (aten_name : String) : Bool :=
  (dictGet r.registry aten_name).isSome

/-- Mirrors `Registry.get_function_meta_by_name`: lookup by the onnx function
name, not the aten name. -/
def Registry.get_function_meta_by_name (r : Registry) (name : String) :
    Option FunctionWithMeta :=
  dictGet r.name_to_function name

/-- Mirrors `torch_op`'s wrapper: capture the signature, keep the function
as-is when `trace_only`, otherwise hand it to the external compiler
(out of scope, modelled as a parameter), then register the processed
function. -/
def torch_op (compileFn : Impl → Impl) (aten_name : String) (overload : Bool)
    (registry : Registry) (trace_only : Bool) (func : Impl) (signature : Signature) :
    Registry × Option RegError :=
  let processed_func := if trace_only then func else compileFn func
  registry.register processed_func aten_name signature overload

/-- The `OverloadedFunction` that `register`'s `setdefault` step works on: the
existing one for the name, or a fresh empty one. -/
def lookupOrNew (r : Registry) (n : String) : OverloadedFunction :=
  match dictGet r.registry n with
  | some o => o
  | none => OverloadedFunction.mk n none []

/-! ## Lemmas about `dedupFirst`, dictionaries and strings -/

theorem mem_dedupFirst {α : Type} [DecidableEq α] {a : α} :
    ∀ {l : List α}, a ∈ dedupFirst l ↔ a ∈ l
  | [] => Iff.rfl
  | x :: xs => by
    simp only [dedupFirst, List.mem_cons, List.mem_filter, decide_eq_true_eq,
      mem_dedupFirst (l := xs)]
    constructor
    · rintro (h | ⟨h1, _⟩)
      · exact Or.inl h
      · exact Or.inr h1
    · rintro (h | h)
      · exact Or.inl h
      · by_cases hx : a = x
        · exact Or.inl hx
        · exact Or.inr ⟨h, hx⟩

theorem nodup_dedupFirst {α : Type} [DecidableEq α] : ∀ l : List α, (dedupFirst l).Nodup
  | [] => List.nodup_nil
  | x :: xs => by
    rw [dedupFirst]
    refine List.Nodup.cons ?_ (List.Nodup.filter _ (nodup_dedupFirst xs))
    intro hmem
    rw [List.mem_filter] at hmem
    simp at hmem

theorem length_dedupFirst_le {α : Type} [DecidableEq α] :
    ∀ l : List α, (dedupFirst l).length ≤ l.length
  | [] => Nat.le_refl _
  | x :: xs => by
    rw [dedupFirst]
    simp only [List.length_cons]
    have h1 := List.length_filter_le (fun y => decide (y ≠ x)) (dedupFirst xs)
    have h2 := length_dedupFirst_le xs
    omega

theorem dedupFirst_eq_self_of_nodup {α : Type} [DecidableEq α] :
    ∀ {l : List α}, l.Nodup → dedupFirst l = l
  | [], _ => rfl
  | x :: xs, h => by
    rw [dedupFirst, dedupFirst_eq_self_of_nodup (List.nodup_cons.mp h).2]
    congr 1
    refine List.filter_eq_self.mpr fun a ha => ?_
    simp only [decide_eq_true_eq]
    exact fun hax => (List.nodup_cons.mp h).1 (hax ▸ ha)

theorem dedupFirst_append_of_nodup {α : Type} [DecidableEq α] :
    ∀ {l : List α} (r : List α), l.Nodup →
      dedupFirst (l ++ r) = l ++ (dedupFirst r).filter (fun y => decide (y ∉ l))
  | [], r, _ => by simp
  | x :: l, r, h => by
    have hx : x ∉ l := (List.nodup_cons.mp h).1
    have hl : l.Nodup := (List.nodup_cons.mp h).2
    have hfl : l.filter (fun y => decide (y ≠ x)) = l := by
      refine List.filter_eq_self.mpr fun a ha => ?_
      simp only [decide_eq_true_eq]
      exact fun hax => hx (hax ▸ ha)
    rw [List.cons_append, dedupFirst, dedupFirst_append_of_nodup r hl,
      List.filter_append, hfl, List.filter_filter, List.cons_append]
    congr 2
    refine List.filter_congr fun a _ => ?_
    by_cases h1 : a = x <;> by_cases h2 : a ∈ l <;> simp [h1, h2]

theorem dictGet_dictSet_self {α : Type} :
    ∀ (d : List (String × α)) (k : String) (v : α), dictGet (dictSet d k v) k = some v
  | [], k, v => by simp [dictGet, dictSet]
  | (k2, v2) :: rest, k, v => by
    by_cases h : k2 = k
    · simp [dictGet, dictSet, h]
    · simp only [dictGet, dictSet, h, if_false]
      exact dictGet_dictSet_self rest k v

theorem dictGet_dictSet_ne {α : Type} :
    ∀ (d : List (String × α)) (k m : String) (v : α), m ≠ k →
      dictGet (dictSet d k v) m = dictGet d m
  | [], k, m, v, h => by
    simp only [dictSet, dictGet, if_neg (fun hh : k = m => h hh.symm)]
  | (k2, v2) :: rest, k, m, v, h => by
    by_cases h2 : k2 = k
    · subst h2
      simp only [dictSet, if_pos rfl, dictGet, if_neg (fun hh : k2 = m => h hh.symm)]
    · simp only [dictSet, if_neg h2, dictGet]
      by_cases h3 : k2 = m
      · simp only [if_pos h3]
      · simp only [if_neg h3]
        exact dictGet_dictSet_ne rest k m v h

theorem strWrap_inj (p q : String) {a b : String} (h : p ++ a ++ q = p ++ b ++ q) :
    a = b := by
  have hd := congrArg String.data h
  simp only [String.data_append, List.append_assoc] at hd
  exact String.ext (List.append_cancel_right (List.append_cancel_left hd))

theorem optionalWrap_injective : Function.Injective optionalWrap :=
  fun _ _ h => strWrap_inj "optional(" ")" h

theorem sequenceWrap_injective : Function.Injective sequenceWrap :=
  fun _ _ h => strWrap_inj "sequence(" ")" h

/-! ## Lemmas about the analyzer -/

theorem resolve_nodup : (e : TypeExpr) → (pytype_to_input_strings e).Nodup
  | .elemType _ => by simp [pytype_to_input_strings]
  | .shaped _ _ => by simp [pytype_to_input_strings]
  | .tensorWildcard => by decide
  | .typeVarConstraints _ _ => nodup_dedupFirst _
  | .typeVarBound _ b => resolve_nodup b
  | .union _ => nodup_dedupFirst _
  | .opt _ => nodup_dedupFirst _
  | .seq inner => List.Nodup.map sequenceWrap_injective (resolve_nodup inner)

theorem resolveMembers_map_elemType (cs : List ElementType) :
    resolveMembers (cs.map TypeExpr.elemType) = cs.map tensorStr := by
  induction cs with
  | nil => rfl
  | cons c cs ih => simp [resolveMembers, pytype_to_input_strings, ih]

/-- The concrete test scenarios of the analyzer contract. -/
theorem resolve_concrete_scenarios :
    pytype_to_input_strings (.elemType .int64) = ["tensor(int64)"]
    ∧ pytype_to_input_strings (.opt (.elemType .int64))
        = ["tensor(int64)", "optional(tensor(int64))"]
    ∧ pytype_to_input_strings (.seq (.elemType .int64)) = ["sequence(tensor(int64))"]
    ∧ pytype_to_input_strings (.opt (.union [.elemType .int64, .elemType .float]))
        = ["tensor(int64)", "tensor(float)",
           "optional(tensor(int64))", "optional(tensor(float))"]
    ∧ pytype_to_input_strings (.union [.seq (.elemType .int64), .seq (.elemType .float)])
        = ["sequence(tensor(int64))", "sequence(tensor(float))"] := by
  refine ⟨rfl, by decide, rfl, by decide, by decide⟩

/-! ## The claims -/

/-- C1: for every type expression `X`, `resolve(Optional(X))` is exactly
`resolve(X)` (same entries, same order, same length) followed by each of those
entries wrapped in `optional(...)`, deduplicated preserving first occurrence:
it equals `resolve(X)` followed by the wrapped entries not already present, in
particular it begins with `resolve(X)`, its length is at most
`2 * |resolve(X)|`, and it contains no duplicates. -/
theorem optional_resolution_spec (X : TypeExpr) :
    pytype_to_input_strings (.opt X)
      = pytype_to_input_strings X
        ++ ((pytype_to_input_strings X).map optionalWrap).filter
            (fun s => decide (s ∉ pytype_to_input_strings X))
    ∧ (∃ rest, pytype_to_input_strings (.opt X) = pytype_to_input_strings X ++ rest)
    ∧ (pytype_to_input_strings (.opt X)).length ≤ 2 * (pytype_to_input_strings X).length
    ∧ (pytype_to_input_strings (.opt X)).Nodup := by
  have hn : (pytype_to_input_strings X).Nodup := resolve_nodup X
  have hwrap : ((pytype_to_input_strings X).map optionalWrap).Nodup :=
    List.Nodup.map optionalWrap_injective hn
  have heq : pytype_to_input_strings (.opt X)
      = dedupFirst (pytype_to_input_strings X
          ++ (pytype_to_input_strings X).map optionalWrap) := rfl
  have hmain : pytype_to_input_strings (.opt X)
      = pytype_to_input_strings X
        ++ ((pytype_to_input_strings X).map optionalWrap).filter
            (fun s => decide (s ∉ pytype_to_input_strings X)) := by
    rw [heq, dedupFirst_append_of_nodup _ hn, dedupFirst_eq_self_of_nodup hwrap]
  refine ⟨hmain, ⟨_, hmain⟩, ?_, ?_⟩
  · rw [heq]
    have h1 := length_dedupFirst_le (pytype_to_input_strings X
      ++ (pytype_to_input_strings X).map optionalWrap)
    simp only [List.length_append, List.length_map] at h1
    omega
  · rw [heq]
    exact nodup_dedupFirst _

/-- C2: for every type expression `X`, `resolve(Sequence(X))` has the same
length as `resolve(X)`, its i-th entry is the i-th entry of `resolve(X)`
wrapped in `sequence(...)`, and every entry is a wrapped (never bare) form. -/
theorem sequence_resolution_spec (X : TypeExpr) :
    (pytype_to_input_strings (.seq X)).length = (pytype_to_input_strings X).length
    ∧ (∀ i : Nat, (pytype_to_input_strings (.seq X))[i]?
        = (pytype_to_input_strings X)[i]?.map sequenceWrap)
    ∧ (∀ s ∈ pytype_to_input_strings (.seq X),
        ∃ t ∈ pytype_to_input_strings X, s = "sequence(" ++ t ++ ")") := by
  have heq : pytype_to_input_strings (.seq X)
      = (pytype_to_input_strings X).map sequenceWrap := rfl
  refine ⟨by rw [heq, List.length_map], fun i => ?_, fun s hs => ?_⟩
  · rw [heq, List.getElem?_map]
  · rw [heq, List.mem_map] at hs
    obtain ⟨t, ht, rfl⟩ := hs
    exact ⟨t, ht, rfl⟩

/-- C3: resolving the `TensorType` wildcard returns exactly the full fixed
catalog `ALL_TYPE_STRINGS` of supported element-type descriptors, in the
catalog's canonical declared order; the catalog covers every element kind and
has no duplicates. -/
theorem wildcard_resolution_spec :
    pytype_to_input_strings .tensorWildcard = ALL_TYPE_STRINGS
    ∧ ALL_TYPE_STRINGS = ElementType.all.map tensorStr
    ∧ (∀ e : ElementType, e ∈ ElementType.all)
    ∧ ALL_TYPE_STRINGS.Nodup := by
  refine ⟨rfl, rfl, fun e => ?_, by decide⟩
  cases e <;> decide

/-- C4: a `TypeVariable` with an explicit constraint tuple resolves exactly as
the union of those constraints; with a bound that is a union it resolves as
that union; with a bound that is a single element type `elem` it resolves to
`[tensor(elem)]`. -/
theorem type_variable_resolution_spec :
    (∀ (id : String) (cs : List ElementType),
      pytype_to_input_strings (.typeVarConstraints id cs)
        = pytype_to_input_strings (.union (cs.map TypeExpr.elemType)))
    ∧ (∀ (id : String) (ms : List TypeExpr),
      pytype_to_input_strings (.typeVarBound id (.union ms))
        = pytype_to_input_strings (.union ms))
    ∧ (∀ (id : String) (e : ElementType),
      pytype_to_input_strings (.typeVarBound id (.elemType e)) = [tensorStr e]) := by
  refine ⟨fun id cs => ?_, fun id ms => rfl, fun id e => rfl⟩
  show dedupFirst (cs.map tensorStr) = dedupFirst (resolveMembers (cs.map TypeExpr.elemType))
  rw [resolveMembers_map_elemType]

/-- C5: `get_type_constraint_name` returns a name exactly for a bare type
variable (its identifier), `Optional` directly wrapping a bare type variable
(`"Optional" + id`), or `Sequence` directly wrapping a bare type variable
(`"Sequence" + id`); for every other shape it returns `none`. -/
theorem constraint_name_spec (e : TypeExpr) :
    ((get_type_constraint_name e).isSome ↔
      ((bareTvName e).isSome
        ∨ (∃ v, e = .opt v ∧ (bareTvName v).isSome)
        ∨ (∃ v, e = .seq v ∧ (bareTvName v).isSome)))
    ∧ (∀ id, bareTvName e = some id → get_type_constraint_name e = some id)
    ∧ (∀ v id, e = .opt v → bareTvName v = some id →
        get_type_constraint_name e = some ("Optional" ++ id))
    ∧ (∀ v id, e = .seq v → bareTvName v = some id →
        get_type_constraint_name e = some ("Sequence" ++ id)) := by
  refine ⟨?_, ?_, ?_, ?_⟩
  · cases e with
    | opt v => cases v <;> simp [get_type_constraint_name, bareTvName]
    | seq v => cases v <;> simp [get_type_constraint_name, bareTvName]
    | _ => simp [get_type_constraint_name, bareTvName]
  · intro id h
    cases e <;> simp_all [get_type_constraint_name, bareTvName]
  · rintro v id rfl h
    cases v <;> simp_all [get_type_constraint_name, bareTvName]
  · rintro v id rfl h
    cases v <;> simp_all [get_type_constraint_name, bareTvName]

/-- C8: applying a shape to an already-shaped tensor type fails with
`InvalidShapeError` at expression-construction time: any successful shape
application yields a term whose further shaping fails. -/
theorem reshape_invalid_spec (elem : ElementType) (sh1 sh2 : ShapeAnn)
    (t u : TypeExpr) :
    TypeExpr.withShape (.shaped elem sh1) sh2 = .error .invalidShapeError
    ∧ (TypeExpr.withShape t sh1 = .ok u →
        TypeExpr.withShape u sh2 = .error .invalidShapeError) := by
  refine ⟨rfl, fun h => ?_⟩
  cases t <;> simp [TypeExpr.withShape] at h
  subst h
  rfl

/-! ## Lemmas about the registry -/

theorem register_fst_registry (r : Registry) (func : Impl) (n : String)
    (S : Signature) (ov : Bool) :
    (r.register func n S ov).1.registry
      = dictSet r.registry n
          (if ov then (lookupOrNew r n).add_overload ⟨n, func, S⟩
           else (lookupOrNew r n).set_default ⟨n, func, S⟩) := by
  cases h : Impl.nameAttr func <;>
    simp [Registry.register, lookupOrNew, h]

theorem register_snd (r : Registry) (func : Impl) (n : String)
    (S : Signature) (ov : Bool) :
    (r.register func n S ov).2
      = if (Impl.nameAttr func).isSome then none else some RegError.attributeError := by
  cases h : Impl.nameAttr func <;> simp [Registry.register, h]

theorem register_fst_ntf_some (r : Registry) (func : Impl) (n : String)
    (S : Signature) (ov : Bool) (sym : String) (h : Impl.nameAttr func = some sym) :
    (r.register func n S ov).1.name_to_function
      = dictSet r.name_to_function sym ⟨n, func, S⟩ := by
  simp [Registry.register, h]

theorem register_fst_ntf_none (r : Registry) (func : Impl) (n : String)
    (S : Signature) (ov : Bool) (h : Impl.nameAttr func = none) :
    (r.register func n S ov).1.name_to_function = r.name_to_function := by
  simp [Registry.register, h]

/-- C6: registering a default and then an overload under one operator name
leaves the recorded default unchanged and appends exactly one record to the
overload list; registering two defaults leaves only the second as the
recorded default; in both cases every other operator name's `OverloadedFunction`
is unmodified. -/
theorem register_default_then_overload_spec (r : Registry) (n : String)
    (S1 S2 : Signature) (f1 f2 : Impl) :
    (∃ o1 o2,
      (r.register f1 n S1 false).1.getItem n = some o1
      ∧ ((r.register f1 n S1 false).1.register f2 n S2 true).1.getItem n = some o2
      ∧ o1.default = some ⟨n, f1, S1⟩
      ∧ o2.default = o1.default
      ∧ o2.overloads = o1.overloads ++ [⟨n, f2, S2⟩])
    ∧ (∃ o, ((r.register f1 n S1 false).1.register f2 n S2 false).1.getItem n = some o
        ∧ o.default = some ⟨n, f2, S2⟩)
    ∧ (∀ m, m ≠ n →
        ((r.register f1 n S1 false).1.register f2 n S2 true).1.getItem m = r.getItem m
        ∧ ((r.register f1 n S1 false).1.register f2 n S2 false).1.getItem m
            = r.getItem m) := by
  set o1 : OverloadedFunction := (lookupOrNew r n).set_default ⟨n, f1, S1⟩ with ho1
  have hr1 : (r.register f1 n S1 false).1.getItem n = some o1 := by
    rw [Registry.getItem, register_fst_registry]
    simp [dictGet_dictSet_self]
  have hlook : lookupOrNew (r.register f1 n S1 false).1 n = o1 := by
    rw [lookupOrNew]
    rw [Registry.getItem] at hr1
    rw [hr1]
  refine ⟨⟨o1, o1.add_overload ⟨n, f2, S2⟩, hr1, ?_, rfl, rfl, rfl⟩,
    ⟨o1.set_default ⟨n, f2, S2⟩, ?_, rfl⟩, fun m hm => ⟨?_, ?_⟩⟩
  · rw [Registry.getItem, register_fst_registry, hlook]
    simp [dictGet_dictSet_self]
  · rw [Registry.getItem, register_fst_registry, hlook]
    simp [dictGet_dictSet_self]
  · rw [Registry.getItem, register_fst_registry, dictGet_dictSet_ne _ _ _ _ hm,
      register_fst_registry, dictGet_dictSet_ne _ _ _ _ hm, Registry.getItem]
  · rw [Registry.getItem, register_fst_registry, dictGet_dictSet_ne _ _ _ _ hm,
      register_fst_registry, dictGet_dictSet_ne _ _ _ _ hm, Registry.getItem]

/-- C6 witness: concrete two-step registration and the frame at another
operator name. -/
theorem register_default_then_overload_witness :
    "aten::mul" ≠ "aten::add"
    ∧ (((⟨[], []⟩ : Registry).register (.onnxFunction "g1") "aten::add" ⟨"s1"⟩
          false).1.register (.onnxFunction "g2") "aten::add" ⟨"s2"⟩ true).1.getItem
        "aten::mul" = (⟨[], []⟩ : Registry).getItem "aten::mul" :=
  ⟨by decide,
   ((register_default_then_overload_spec ⟨[], []⟩ "aten::add" ⟨"s1"⟩ ⟨"s2"⟩
      (.onnxFunction "g1") (.onnxFunction "g2")).2.2 "aten::mul" (by decide)).1⟩

/-- C7: after any successful registration with signature `S`, looking the
record up by the implementation's generated symbol returns a record whose
stored signature is exactly `S`, with the registered name and implementation. -/
theorem symbol_lookup_signature_spec (r : Registry) (f : Impl) (n : String)
    (S : Signature) (ov : Bool) (sym : String) (h : f.nameAttr = some sym) :
    (r.register f n S ov).2 = none
    ∧ (r.register f n S ov).1.get_function_meta_by_name sym
        = some ⟨n, f, S⟩ := by
  constructor
  · rw [register_snd, h]
    rfl
  · rw [Registry.get_function_meta_by_name, register_fst_ntf_some r f n S ov sym h]
    exact dictGet_dictSet_self _ _ _

/-- C7 witness: a concrete successful registration and its symbol lookup. -/
theorem symbol_lookup_signature_witness :
    ((⟨[], []⟩ : Registry).register (.onnxFunction "nn_add") "aten::add" ⟨"(a, b)"⟩
        false).2 = none
    ∧ ((⟨[], []⟩ : Registry).register (.onnxFunction "nn_add") "aten::add" ⟨"(a, b)"⟩
        false).1.get_function_meta_by_name "nn_add"
      = some ⟨"aten::add", .onnxFunction "nn_add", ⟨"(a, b)"⟩⟩ :=
  symbol_lookup_signature_spec ⟨[], []⟩ (.onnxFunction "nn_add") "aten::add"
    ⟨"(a, b)"⟩ false "nn_add" rfl

/-- C9 counterexample: a registration that fails with an attribute error does
not leave the prior registry state unchanged — the operator-name table has
already been mutated when the error is raised. -/
theorem register_atomicity_cex :
    ((⟨[], []⟩ : Registry).register (.plainFunction "f") "aten::add" ⟨"(x)"⟩
        false).2 = some RegError.attributeError
    ∧ ((⟨[], []⟩ : Registry).register (.plainFunction "f") "aten::add" ⟨"(x)"⟩
        false).1 ≠ (⟨[], []⟩ : Registry) := by
  decide

/-- C9 amended: a successful registration fully succeeds with the documented
overwrite behavior, and resolution never mutates state; but a registration
that fails (attribute error, for an implementation without a `name`
attribute) leaves the symbol index and every other operator name's entry
unchanged while the named operator's `OverloadedFunction` has already been
updated (default set or overload appended). -/
theorem register_partial_state_spec (r : Registry) (p : String) (n : String)
    (S : Signature) (ov : Bool) :
    (r.register (.plainFunction p) n S ov).2 = some RegError.attributeError
    ∧ (r.register (.plainFunction p) n S ov).1.name_to_function = r.name_to_function
    ∧ (∀ m, m ≠ n →
        dictGet (r.register (.plainFunction p) n S ov).1.registry m
          = dictGet r.registry m)
    ∧ (r.register (.plainFunction p) n S ov).1.registry
        = dictSet r.registry n
            (if ov then (lookupOrNew r n).add_overload ⟨n, .plainFunction p, S⟩
             else (lookupOrNew r n).set_default ⟨n, .plainFunction p, S⟩) := by
  refine ⟨by rw [register_snd]; rfl,
    register_fst_ntf_none r _ n S ov rfl, fun m hm => ?_, register_fst_registry r _ n S ov⟩
  rw [register_fst_registry, dictGet_dictSet_ne _ _ _ _ hm]

/-- C9 amended witness: concrete failed registration with its partial state
pinned down. -/
theorem register_partial_state_witness :
    ((⟨[], []⟩ : Registry).register (.plainFunction "f") "aten::add" ⟨"(x)"⟩
        false).2 = some RegError.attributeError
    ∧ dictGet ((⟨[], []⟩ : Registry).register (.plainFunction "f") "aten::add" ⟨"(x)"⟩
        false).1.registry "aten::mul" = dictGet ([] : List (String × OverloadedFunction))
        "aten::mul" :=
  ⟨(register_partial_state_spec ⟨[], []⟩ "f" "aten::add" ⟨"(x)"⟩ false).1,
   (register_partial_state_spec ⟨[], []⟩ "f" "aten::add" ⟨"(x)"⟩ false).2.2.1
     "aten::mul" (by decide)⟩

/-- C10: registration succeeds exactly when the implementation exposes a
`name` attribute; a plain Python function (no `name` attribute) registered
as-is — as the `trace_only` path of `torch_op` does — makes `register` fail
with an attribute error instead of completing. -/
theorem register_requires_name_attr_spec (r : Registry) (f : Impl) (n : String)
    (S : Signature) (ov : Bool) :
    ((r.register f n S ov).2 = none ↔ (f.nameAttr).isSome)
    ∧ (∀ p, (r.register (.plainFunction p) n S ov).2 = some RegError.attributeError)
    ∧ (∀ (compileFn : Impl → Impl) (p : String),
        (torch_op compileFn n ov r true (.plainFunction p) S).2
          = some RegError.attributeError) := by
  refine ⟨?_, fun p => by rw [register_snd]; rfl,
    fun compileFn p => by rw [torch_op]; simp only [if_pos rfl]; rw [register_snd]; rfl⟩
  rw [register_snd]
  cases h : Impl.nameAttr f <;> simp

/-- C2 witness: the sequence rule evaluated at `Sequence(int64)`. -/
theorem sequence_resolution_witness :
    (pytype_to_input_strings (.seq (.elemType .int64))).length
        = (pytype_to_input_strings (.elemType .int64)).length
    ∧ ∃ t ∈ pytype_to_input_strings (.elemType .int64),
        "sequence(tensor(int64))" = "sequence(" ++ t ++ ")" :=
  ⟨(sequence_resolution_spec (.elemType .int64)).1,
   (sequence_resolution_spec (.elemType .int64)).2.2 "sequence(tensor(int64))"
     (by decide)⟩

/-- C5 witness: the namer evaluated on `Optional`/`Sequence` of a bare type
variable. -/
theorem constraint_name_witness :
    get_type_constraint_name
        (.opt (.typeVarBound "_TestTypeVarOneBound" (.elemType .int64)))
      = some ("Optional" ++ "_TestTypeVarOneBound")
    ∧ get_type_constraint_name
        (.seq (.typeVarConstraints "_TestTypeVarConstraints" [.int64, .float]))
      = some ("Sequence" ++ "_TestTypeVarConstraints") :=
  ⟨(constraint_name_spec _).2.2.1 _ "_TestTypeVarOneBound" rfl rfl,
   (constraint_name_spec _).2.2.2 _ "_TestTypeVarConstraints" rfl rfl⟩

/-- C8 witness: the `FLOAT[10][20]` scenario — the first shape application
succeeds and the second fails. -/
theorem reshape_invalid_witness :
    TypeExpr.withShape (.shaped .float (.dims [10])) (.dims [20])
      = Except.error ConstructError.invalidShapeError :=
  (reshape_invalid_spec .float (.dims [10]) (.dims [20]) (.elemType .float)
      (.shaped .float (.dims [10]))).2 rfl

end OnnxScript
